import Mathlib

/-!
# Verification of the tinywasm compilation-mode orchestrator

Shallow embedding of the mode-orchestration subsystem of `cdvelop/tinywasm`:
mode state management and builder switching (`Change`, `updateCurrentBuilder`,
`Value`), the one-shot project/toolchain detector
(`analyzeWasmExecJsContent`, `detectProjectConfiguration`), the runtime-init
script generator with per-mode caching and round-trip header encoding
(`javascriptForInitializing`, `getModeFromWasmExecJsHeader`, `normalizeJs`),
the file-relevance classifier (`ShouldCompileToWasm`) and the module-name
extractor (`GetModuleName`).

Modelling conventions:
* Go strings are modelled as `List Char`; byte-level and rune-level indexing
  coincide on the ASCII data handled here.
* Filesystem reads are passed in as explicit parameters (`Option (List Char)`:
  `none` models a failed stat/read), and filesystem writes are dropped (they
  do not feed back into the state of this subsystem except through the
  generator cache, which is modelled).
* The external builder handles (`gobuild.GoBuild` pointers) are modelled by
  the enumeration `BuilderId`; the output file name shared by the three
  builders (all are constructed with the same `OutName`/`Extension`) is the
  state field `mainOutputFileNameWithExtension`.
* The progress callback is modelled by returning the list of messages passed
  to it; the distinct free-text messages of the source are modelled by the
  constructors of `Msg`.
* Functions from the external `tinystring` library are modelled by their
  documented string semantics (`Contains` = substring test, `HasSuffix` =
  suffix test, `Convert(..).ToUpper()` = ASCII upper-casing, `Err`/`Errf` =
  error construction).
-/

set_option linter.unusedVariables false

namespace Tinywasm

/-- The two characters trimmed by `strings.TrimRight(L, " \t")` in
`normalizeJs`. -/
def isTrailWs (c : Char) : Bool :=
  c = ' ' || c = '\t'

/-- ASCII white space as trimmed by Go's `strings.TrimSpace`
(space, tab, newline, vertical tab, form feed, carriage return). -/
def isGoSpace (c : Char) : Bool :=
  c = ' ' || c = '\t' || c = '\n' || c = '\x0b' || c = '\x0c' || c = '\r'

/-- `strings.ReplaceAll s "\r\n" "\n"`: collapse CRLF pairs, scanning left to
right. -/
def replaceCRLF : List Char → List Char
  | [] => []
  | [c] => [c]
  | c₁ :: c₂ :: rest =>
    if c₁ = '\r' ∧ c₂ = '\n' then '\n' :: replaceCRLF rest
    else c₁ :: replaceCRLF (c₂ :: rest)

/-- `strings.ReplaceAll s "\r" "\n"` (after CRLF collapsing every remaining
CR is isolated, so this is a character map). -/
def replaceCR (s : List Char) : List Char :=
  s.map (fun c => if c = '\r' then '\n' else c)

/-- Prepend a character to the first field of a split result (the
accumulating step of `strings.Split`). -/
def consField (c : Char) : List (List Char) → List (List Char)
  | [] => [[c]]
  | s :: ss => (c :: s) :: ss

/-- `strings.Split s sep` for a single-character separator. Always returns at
least one (possibly empty) field. -/
def splitOnChar (sep : Char) : List Char → List (List Char)
  | [] => [[]]
  | c :: rest =>
    if c = sep then [] :: splitOnChar sep rest
    else consField c (splitOnChar sep rest)

/-- `strings.Split s "\n"` as used by `normalizeJs`. -/
def splitOnNl (s : List Char) : List (List Char) :=
  splitOnChar '\n' s

/-- `strings.TrimRight L " \t"`. -/
def trimRightWs (l : List Char) : List Char :=
  (l.reverse.dropWhile isTrailWs).reverse

/-- `strings.Join lines "\n"`. -/
def joinNl : List (List Char) → List Char
  | [] => []
  | [l] => l
  | l :: ls => l ++ '\n' :: joinNl ls

/-- `strings.TrimSpace s` (ASCII model). -/
def trimSpace (l : List Char) : List Char :=
  ((l.dropWhile isGoSpace).reverse.dropWhile isGoSpace).reverse

/-- `content[:strings.Index(content, "\n")]`, or the whole string when it has
no newline: the first line of `content`. -/
def takeUntilNl : List Char → List Char
  | [] => []
  | c :: rest => if c = '\n' then [] else c :: takeUntilNl rest

/-- `strings.TrimPrefix s pre`. -/
def trimPrefixStr (pre l : List Char) : List Char :=
  if pre.isPrefixOf l then l.drop pre.length else l

/-- `strings.Index l pat` restricted to a non-empty pattern: index of the
first occurrence, `none` for Go's `-1`. -/
def firstIdx (pat : List Char) : List Char → Option Nat
  | [] => none
  | c :: rest =>
    if pat.isPrefixOf (c :: rest) then some 0
    else (firstIdx pat rest).map (fun n => n + 1)

/-- `strings.IndexAny l chars`: index of the first character of `l` that
occurs in `chars`, `none` for Go's `-1`. -/
def indexAny (chars : List Char) : List Char → Option Nat
  | [] => none
  | c :: rest =>
    if c ∈ chars then some 0
    else (indexAny chars rest).map (fun n => n + 1)

/-- ASCII model of `tinystring.Convert(s).ToUpper().String()`. -/
def toUpperStr (s : List Char) : List Char :=
  s.map Char.toUpper

/-- `normalizeJs` (javascripts.go): CRLF/CR to LF, then trim trailing spaces
and tabs from every line. -/
def normalizeJs (s : List Char) : List Char :=
  joinNl (((splitOnNl (replaceCR (replaceCRLF s)))).map trimRightWs)

/-- `wasm_execGoSignatures` (javascripts.go): signatures expected in Go's
wasm_exec.js. -/
def wasm_execGoSignatures : List (List Char) :=
  ["runtime.scheduleTimeoutEvent".data,
   "runtime.clearTimeoutEvent".data,
   "runtime.wasmExit".data]

/-- `wasm_execTinyGoSignatures` (javascripts.go): signatures expected in
TinyGo's wasm_exec.js. -/
def wasm_execTinyGoSignatures : List (List Char) :=
  ["runtime.sleepTicks".data,
   "runtime.ticks".data,
   "$runtime.alloc".data,
   "tinygo_js".data]

/-- `tinystring.Contains content pat`: substring occurrence test. -/
def containsStr (pat : List Char) : List Char → Bool
  | [] => pat.isPrefixOf []
  | c :: rest => pat.isPrefixOf (c :: rest) || containsStr pat rest

/-- The signature-counting loops of `analyzeWasmExecJsContent`: how many of
the given signatures occur as substrings of `content`. -/
def countSignatures (sigs : List (List Char)) (content : List Char) : Nat :=
  (sigs.filter (fun s => containsStr s content)).length

/-- `getModeFromWasmExecJsHeader` (javascripts.go): extract the mode shortcut
from the `// TinyWasm: mode=<token>` header on the first line. Go's
`(string, bool)` return is modelled as `Option`. -/
def getModeFromWasmExecJsHeader (content : List Char) : Option (List Char) :=
  let pre := "// TinyWasm: ".data
  let firstLine := takeUntilNl content
  if pre.isPrefixOf firstLine then
    let rest := trimSpace (trimPrefixStr pre firstLine)
    let lower := rest.map Char.toLower
    match firstIdx "mode=".data lower with
    | some mIdx =>
      let after := rest.drop (mIdx + "mode=".data.length)
      let modeVal :=
        match indexAny "; \t".data after with
        | none => trimSpace after
        | some e => trimSpace (after.take e)
      if modeVal ≠ [] then some modeVal else none
    | none => none
  else none

/-! ## Data model

`TinyWasm`/`Config` follow the struct of the current generation
(`tinywasm.go`, unnamed/part_005); fields that only feed the modelled-away
I/O layer (directory paths, logger, build callbacks) are omitted because no
modelled operation reads them. -/

/-- The three `gobuild.GoBuild` builder handles created by
`initializeBuilder`/`builderWasmInit`. Pointer identity in Go becomes
constructor identity here. -/
inductive BuilderId
  | coding
  | debug
  | production
deriving DecidableEq, Repr

/-- Mode-shortcut configuration (`Config` in tinywasm.go). In the sibling
generations of this code the same three fields are named
`BuildFastShortcut`/`BuildBugShortcut`/`BuildMinimalShortcut` and
`BuildLargeSizeShortcut`/`BuildMediumSizeShortcut`/`BuildSmallSizeShortcut`;
the role (Go-standard / TinyGo-debug / TinyGo-production) is identical. -/
structure Config where
  CodingShortcut : List Char
  DebuggingShortcut : List Char
  ProductionShortcut : List Char
deriving DecidableEq, Repr

/-- The mutable state of a `TinyWasm` instance (tinywasm.go / part_005). -/
structure TinyWasm where
  config : Config
  mainInputFile : List Char
  tinyGoCompiler : Bool
  wasmProject : Bool
  tinyGoInstalled : Bool
  currentMode : List Char
  modeC_go_wasm_exec_cache : List Char
  modeD_tinygo_wasm_exec_cache : List Char
  modeP_tinygo_wasm_exec_cache : List Char
  activeBuilder : Option BuilderId
  mainOutputFileNameWithExtension : List Char
deriving DecidableEq, Repr

/-- The distinct messages the subsystem passes to the `progress` callback /
returns as errors. Free Go text (built via `tinystring.Translate`/`Err`) is
modelled by one constructor per distinct message shape. -/
inductive Msg
  | invalidMode (mode : List Char)
  | cannotInstallTinyGo
  | switchingToCoding
  | switchingToDebugging
  | switchingToProduction
  | invalidModeMsg
  | warningCompilationFailed (err : List Char)
deriving DecidableEq, Repr

/-! ## Operations -/

/-- `Value` (tinywasm.go): current compiler mode shortcut, defaulting to the
coding shortcut when no mode is tracked. -/
def Value (st : TinyWasm) : List Char :=
  if st.currentMode = [] then st.config.CodingShortcut else st.currentMode

/-- `requiresTinyGo` (tinywasm.go): debug and production modes require the
TinyGo toolchain. -/
def requiresTinyGo (st : TinyWasm) (mode : List Char) : Bool :=
  mode == st.config.DebuggingShortcut || mode == st.config.ProductionShortcut

/-- `WasmProjectTinyGoJsUse` (part_005): project flag and whether TinyGo's
wasm_exec.js variant is in use for the current mode. -/
def WasmProjectTinyGoJsUse (st : TinyWasm) : Bool × Bool :=
  (st.wasmProject, requiresTinyGo st (Value st) && st.tinyGoInstalled)

/-- `validateMode` (tinywasm.go): membership in the three configured
shortcuts; `true` models a `nil` error. -/
def validateMode (st : TinyWasm) (mode : List Char) : Bool :=
  mode == st.config.CodingShortcut ||
  mode == st.config.DebuggingShortcut ||
  mode == st.config.ProductionShortcut

/-- `validateMode` of the Change.go generation: both the candidate and the
configured shortcuts are upper-cased before comparison. -/
def validateModeUpper (st : TinyWasm) (mode : List Char) : Bool :=
  toUpperStr mode == toUpperStr st.config.CodingShortcut ||
  toUpperStr mode == toUpperStr st.config.DebuggingShortcut ||
  toUpperStr mode == toUpperStr st.config.ProductionShortcut

/-- The `switch mode` of `updateCurrentBuilder` (part_003 / builderInit.go):
shortcut to builder handle, defaulting to the coding builder. -/
def builderForMode (c : Config) (mode : List Char) : BuilderId :=
  if mode == c.CodingShortcut then BuilderId.coding
  else if mode == c.DebuggingShortcut then BuilderId.debug
  else if mode == c.ProductionShortcut then BuilderId.production
  else BuilderId.coding

/-- `updateCurrentBuilder` (part_003 / builderInit.go): cancel the previous
builder (external side effect, dropped), set the active builder from the
mode, and track the mode. -/
def updateCurrentBuilder (st : TinyWasm) (mode : List Char) : TinyWasm :=
  { st with activeBuilder := some (builderForMode st.config mode),
            currentMode := mode }

/-- `getSuccessMessage` (tinywasm.go). -/
def getSuccessMessage (st : TinyWasm) (mode : List Char) : Msg :=
  if mode == st.config.CodingShortcut then Msg.switchingToCoding
  else if mode == st.config.DebuggingShortcut then Msg.switchingToDebugging
  else if mode == st.config.ProductionShortcut then Msg.switchingToProduction
  else Msg.invalidModeMsg

/-- `recompileMainWasm` (tinywasm.go): the result of `os.Stat` on the main
input file is the parameter `mainWasmExists`, and the outcome of the active
builder's `CompileProgram` is the parameter `compileResult` (`some err` /
`none` for success). -/
def recompileMainWasm (st : TinyWasm) (mainWasmExists : Bool)
    (compileResult : Option (List Char)) : Option (List Char) :=
  match st.activeBuilder with
  | none => some "builder not initialized".data
  | some _ =>
    if mainWasmExists then compileResult
    else some "main WASM file not found".data

/-- `Change` (tinywasm.go lines 430-479): validated mode transition with
progress reporting. The two filesystem/subprocess observations it makes are
passed in (`mainWasmExists` for `os.Stat`, `compileResult` for the
builder's compile run). -/
def Change (st : TinyWasm) (newValue : List Char) (mainWasmExists : Bool)
    (compileResult : Option (List Char)) : TinyWasm × List Msg :=
  if !(validateMode st newValue) then (st, [Msg.invalidMode newValue])
  else if requiresTinyGo st newValue && !st.tinyGoInstalled then
    (st, [Msg.cannotInstallTinyGo])
  else
    let st₁ := updateCurrentBuilder st newValue
    if !mainWasmExists then (st₁, [getSuccessMessage st₁ newValue])
    else
      match recompileMainWasm st₁ mainWasmExists compileResult with
      | some e => (st₁, [Msg.warningCompilationFailed e])
      | none => (st₁, [getSuccessMessage st₁ newValue])

/-- The header line prepended by `javascriptForInitializing`:
`fmt.Sprintf "// TinyWasm: mode=%s\n" mode`. -/
def headerLine (mode : List Char) : List Char :=
  "// TinyWasm: mode=".data ++ mode ++ ['\n']

/-- The WebAssembly bootstrap snippet appended by
`javascriptForInitializing`, around the active builder's output file name. -/
def glueCode (outName : List Char) : List Char :=
  "\n\t\tconst go = new Go();\n\t\tWebAssembly.instantiateStreaming(fetch(\"".data
    ++ outName
    ++ "\"), go.importObject).then((result) => \x7b\n\t\t\tgo.run(result.instance);\n\t\t\x7d);\n\t".data

/-- The cache-hit checks of `javascriptForInitializing` (javascripts.go
lines 44-56), in source order: the cached content for the mode, when
non-empty. -/
def cacheLookup (st : TinyWasm) (mode : List Char) : Option (List Char) :=
  if mode == st.config.CodingShortcut && st.modeC_go_wasm_exec_cache != [] then
    some st.modeC_go_wasm_exec_cache
  else if mode == st.config.DebuggingShortcut && st.modeD_tinygo_wasm_exec_cache != [] then
    some st.modeD_tinygo_wasm_exec_cache
  else if mode == st.config.ProductionShortcut && st.modeP_tinygo_wasm_exec_cache != [] then
    some st.modeP_tinygo_wasm_exec_cache
  else none

/-- The cache-store chain of `javascriptForInitializing` (javascripts.go
lines 101-115), in source order, including the compiler-based fallback for a
mode matching no shortcut. -/
def cacheStore (st : TinyWasm) (mode : List Char) (tinyGoCompilerInUse : Bool)
    (normalized : List Char) : TinyWasm :=
  if mode == st.config.CodingShortcut then
    { st with modeC_go_wasm_exec_cache := normalized }
  else if mode == st.config.DebuggingShortcut then
    { st with modeD_tinygo_wasm_exec_cache := normalized }
  else if mode == st.config.ProductionShortcut then
    { st with modeP_tinygo_wasm_exec_cache := normalized }
  else if tinyGoCompilerInUse then
    { st with modeD_tinygo_wasm_exec_cache := normalized }
  else
    { st with modeC_go_wasm_exec_cache := normalized }

/-- `javascriptForInitializing` (javascripts.go lines 34-118): per-mode cached
generation of the runtime-init script. The content read from the resolved
wasm_exec.js path is the parameter `payload` (`none` models a failed path
resolution or read). The source's `mode` and `currentModeAtGeneration` are
both `h.Value()` read with no interleaved mutation, hence one `Value st`
here. -/
def javascriptForInitializing (st : TinyWasm) (payload : Option (List Char)) :
    Except (List Char) (List Char) × TinyWasm :=
  if !(WasmProjectTinyGoJsUse st).1 then (Except.ok [], st)
  else
    match cacheLookup st (Value st) with
    | some cached => (Except.ok cached, st)
    | none =>
      match payload with
      | none => (Except.error "wasm_exec.js path resolution or read failed".data, st)
      | some wasmJs =>
        match st.activeBuilder with
        | none => (Except.error "activeBuilder not initialized".data, st)
        | some _ =>
          let normalized := normalizeJs (headerLine (Value st) ++ wasmJs
            ++ glueCode st.mainOutputFileNameWithExtension)
          (Except.ok normalized,
           cacheStore st (Value st) (WasmProjectTinyGoJsUse st).2 normalized)

/-- `ClearJavaScriptCache` (javascripts.go): empty all three cache slots. -/
def ClearJavaScriptCache (st : TinyWasm) : TinyWasm :=
  { st with modeC_go_wasm_exec_cache := [],
            modeD_tinygo_wasm_exec_cache := [],
            modeP_tinygo_wasm_exec_cache := [] }

/-- The mode-recovery tail of `analyzeWasmExecJsContent` (part_005 lines
257-278): prefer the header mode; otherwise fall back to signature-based
defaults. -/
def applyHeaderRecovery (st : TinyWasm) (content : List Char) : TinyWasm :=
  match getModeFromWasmExecJsHeader content with
  | some mode =>
    { st with currentMode := mode,
              activeBuilder :=
                some (if requiresTinyGo st mode then BuilderId.debug else BuilderId.coding) }
  | none =>
    if st.tinyGoCompiler then
      { st with activeBuilder := some BuilderId.debug,
                currentMode := st.config.DebuggingShortcut }
    else
      { st with activeBuilder := some BuilderId.coding,
                currentMode := st.config.CodingShortcut }

/-- `analyzeWasmExecJsContent` (part_005 lines 213-283): signature scoring
followed by header-based mode recovery. The file read is the parameter
`fileData` (`none` models a read error). -/
def analyzeWasmExecJsContent (st : TinyWasm) (fileData : Option (List Char)) :
    TinyWasm × Bool :=
  match fileData with
  | none => (st, false)
  | some content =>
    let goCount := countSignatures wasm_execGoSignatures content
    let tinyCount := countSignatures wasm_execTinyGoSignatures content
    if tinyCount > goCount ∧ 0 < tinyCount then
      (applyHeaderRecovery { st with tinyGoCompiler := true, wasmProject := true } content, true)
    else if goCount > tinyCount ∧ 0 < goCount then
      (applyHeaderRecovery { st with tinyGoCompiler := false, wasmProject := true } content, true)
    else if 0 < tinyCount ∨ 0 < goCount then
      (applyHeaderRecovery
        { st with tinyGoCompiler := decide (0 < tinyCount), wasmProject := true } content, true)
    else (st, false)

/-- `detectFromExistingWasmExecJs` (part_005): `artifact` is `none` when no
file exists at the configured output path, otherwise its content. -/
def detectFromExistingWasmExecJs (st : TinyWasm) (artifact : Option (List Char)) :
    TinyWasm × Bool :=
  match artifact with
  | none => (st, false)
  | some content => analyzeWasmExecJsContent st (some content)

/-- `wasmProjectWriteOrReplaceWasmExecJsOutput` (part_005): for recognized
WASM projects, generate (filling the cache) and write the script; the write
itself is external, so the state effect is the generator's. -/
def wasmProjectWriteOrReplaceWasmExecJsOutput (st : TinyWasm)
    (payload : Option (List Char)) : TinyWasm :=
  if st.wasmProject then (javascriptForInitializing st payload).2 else st

/-- `detectProjectConfiguration` (part_005 lines 171-192): phase 1 reads the
existing artifact, phase 2 (`goFilesFound`, the result of the
`detectFromGoFiles` walk) defaults to coding mode and writes the artifact. -/
def detectProjectConfiguration (st : TinyWasm) (artifact : Option (List Char))
    (goFilesFound : Bool) (payload : Option (List Char)) : TinyWasm :=
  let r := detectFromExistingWasmExecJs st artifact
  if r.2 then r.1
  else if goFilesFound then
    wasmProjectWriteOrReplaceWasmExecJsOutput
      { r.1 with wasmProject := true, tinyGoCompiler := false,
                 currentMode := r.1.config.CodingShortcut }
      payload
  else r.1

/-- `ShouldCompileToWasm` (file_event.go lines 135-148 / tinywasm.go lines
572-585, the final name-only rule). -/
def ShouldCompileToWasm (st : TinyWasm) (fileName filePath : List Char) : Bool :=
  if fileName == st.mainInputFile then true
  else if ".wasm.go".data.isSuffixOf fileName then true
  else false

/-- `Change` of the Change.go generation (lines 20-68): same transition, but
the token is upper-cased first, validation is case-insensitive, and on a
successful compile the artifact is rewritten (which can fill a generator
cache slot). -/
def ChangeWithNormalization (st : TinyWasm) (newValue : List Char)
    (mainWasmExists : Bool) (compileResult : Option (List Char))
    (payload : Option (List Char)) : TinyWasm × List Msg :=
  let nv := toUpperStr newValue
  if !(validateModeUpper st nv) then (st, [Msg.invalidMode nv])
  else if requiresTinyGo st nv && !st.tinyGoInstalled then
    (st, [Msg.cannotInstallTinyGo])
  else
    let st₁ := updateCurrentBuilder st nv
    if !mainWasmExists then (st₁, [getSuccessMessage st₁ nv])
    else
      match recompileMainWasm st₁ mainWasmExists compileResult with
      | some e => (st₁, [Msg.warningCompilationFailed e])
      | none =>
        let st₂ := wasmProjectWriteOrReplaceWasmExecJsOutput st₁ payload
        (st₂, [getSuccessMessage st₂ nv])

/-- The range loop of `GetModuleName` (module.go): the first path segment
equal to `modules` that is followed by at least one more segment yields that
following segment. -/
def modulesLoop : List (List Char) → Option (List Char)
  | [] => none
  | [_] => none
  | part :: next :: rest =>
    if part = "modules".data then some next else modulesLoop (next :: rest)

/-- `GetModuleName` (module.go): `filepath.ToSlash` is the identity on the
slash-separated paths modelled here. Go's `(string, error)` pair, which is
`("", err)` on failure, is modelled as `Except`. -/
def GetModuleName (filePath : List Char) : Except (List Char) (List Char) :=
  match modulesLoop (splitOnChar '/' filePath) with
  | some name => Except.ok name
  | none => Except.error ("could not extract module name from path: ".data ++ filePath)

/-! ## Specification-side predicates -/

/-- The builder/mode consistency invariant stated by the specification: the
active builder is the one registered for the current mode. -/
def modeBuilderConsistent (st : TinyWasm) : Prop :=
  (st.currentMode = st.config.CodingShortcut → st.activeBuilder = some BuilderId.coding) ∧
  (st.currentMode = st.config.DebuggingShortcut → st.activeBuilder = some BuilderId.debug) ∧
  (st.currentMode = st.config.ProductionShortcut → st.activeBuilder = some BuilderId.production)

instance (st : TinyWasm) : Decidable (modeBuilderConsistent st) := by
  unfold modeBuilderConsistent
  infer_instance

/-- A well-formed mode registry: the three configured shortcuts are non-empty
and pairwise distinct (the specification's fixed set of exactly 3 modes). -/
def WellFormedShortcuts (c : Config) : Prop :=
  c.CodingShortcut ≠ [] ∧ c.DebuggingShortcut ≠ [] ∧ c.ProductionShortcut ≠ [] ∧
  c.CodingShortcut ≠ c.DebuggingShortcut ∧ c.CodingShortcut ≠ c.ProductionShortcut ∧
  c.DebuggingShortcut ≠ c.ProductionShortcut

instance (c : Config) : Decidable (WellFormedShortcuts c) := by
  unfold WellFormedShortcuts
  infer_instance

/-- A mode token free of white space and semicolons, as produced by the
header writer and parser (the configured shortcuts are single letters). -/
def cleanModeToken (m : List Char) : Prop :=
  m ≠ [] ∧ ∀ c ∈ m, isGoSpace c = false ∧ c ≠ ';'

instance (m : List Char) : Decidable (cleanModeToken m) := by
  unfold cleanModeToken
  infer_instance

/-- A sample state: default shortcuts `c`/`d`/`p`, a detected WASM project
with TinyGo verified installed, coding mode, empty caches, the coding
builder active. Used by concrete witnesses and counterexamples. -/
def sampleState : TinyWasm :=
  TinyWasm.mk (Config.mk "c".data "d".data "p".data) "main.wasm.go".data
    false true true "c".data [] [] [] (some BuilderId.coding) "main.wasm".data

/-- The script the generator produces for the sample state in coding mode
from the payload `runtime.wasmExit`; used by concrete witnesses. -/
def sampleGenOutput : List Char :=
  normalizeJs (headerLine "c".data ++ "runtime.wasmExit".data ++ glueCode "main.wasm".data)

/-! ## String-operation lemmas -/

theorem isPrefixOf_self_append (p r : List Char) : p.isPrefixOf (p ++ r) = true := by
  induction p with
  | nil => simp [List.isPrefixOf]
  | cons c cs ih => simp [List.isPrefixOf, ih]

theorem replaceCRLF_cons {c : Char} (xs : List Char) (h : c ≠ '\r') :
    replaceCRLF (c :: xs) = c :: replaceCRLF xs := by
  cases xs with
  | nil => rfl
  | cons y ys => simp [replaceCRLF, h]

theorem replaceCRLF_append (l t : List Char) (h : ∀ c ∈ l, c ≠ '\r') :
    replaceCRLF (l ++ t) = l ++ replaceCRLF t := by
  induction l with
  | nil => rfl
  | cons c cs ih =>
    rw [List.cons_append, replaceCRLF_cons _ (h c (by simp)),
      ih (fun x hx => h x (by simp [hx]))]
    simp

theorem replaceCR_eq_self (l : List Char) (h : ∀ c ∈ l, c ≠ '\r') :
    replaceCR l = l := by
  unfold replaceCR
  rw [List.map_congr_left (fun c hc => if_neg (h c hc))]
  simp

theorem consField_ne_nil (c : Char) (ls : List (List Char)) : consField c ls ≠ [] := by
  cases ls <;> simp [consField]

theorem splitOnChar_ne_nil (sep : Char) (t : List Char) : splitOnChar sep t ≠ [] := by
  cases t with
  | nil => simp [splitOnChar]
  | cons c rest =>
    simp only [splitOnChar]
    split
    · simp
    · exact consField_ne_nil _ _

theorem splitOnChar_append (sep : Char) (l t : List Char) (h : ∀ c ∈ l, c ≠ sep) :
    splitOnChar sep (l ++ sep :: t) = l :: splitOnChar sep t := by
  induction l with
  | nil => simp [splitOnChar]
  | cons c cs ih =>
    rw [List.cons_append]
    simp only [splitOnChar]
    rw [if_neg (h c (by simp)), ih (fun x hx => h x (by simp [hx]))]
    rfl

theorem trimRightWs_concat {a : Char} (L : List Char) (h : isTrailWs a = false) :
    trimRightWs (L ++ [a]) = L ++ [a] := by
  unfold trimRightWs
  rw [List.reverse_append]
  simp [List.dropWhile_cons, h]

theorem joinNl_cons (l : List Char) (ls : List (List Char)) (h : ls ≠ []) :
    joinNl (l :: ls) = l ++ '\n' :: joinNl ls := by
  cases ls with
  | nil => exact absurd rfl h
  | cons x xs => rfl

theorem dropWhile_eq_self_of_all {p : Char → Bool} (l : List Char)
    (h : ∀ c ∈ l, p c = false) : l.dropWhile p = l := by
  cases l with
  | nil => rfl
  | cons c cs => simp [List.dropWhile_cons, h c (by simp)]

theorem trimSpace_eq_self (l : List Char) (h : ∀ c ∈ l, isGoSpace c = false) :
    trimSpace l = l := by
  unfold trimSpace
  rw [dropWhile_eq_self_of_all l h,
    dropWhile_eq_self_of_all l.reverse (fun c hc => h c (List.mem_reverse.mp hc)),
    List.reverse_reverse]

theorem takeUntilNl_append (l t : List Char) (h : ∀ c ∈ l, c ≠ '\n') :
    takeUntilNl (l ++ '\n' :: t) = l := by
  induction l with
  | nil => simp [takeUntilNl]
  | cons c cs ih =>
    rw [List.cons_append]
    unfold takeUntilNl
    rw [if_neg (h c (by simp)), ih (fun x hx => h x (by simp [hx]))]

theorem indexAny_none (chars l : List Char) (h : ∀ c ∈ l, c ∉ chars) :
    indexAny chars l = none := by
  induction l with
  | nil => rfl
  | cons c cs ih =>
    unfold indexAny
    rw [if_neg (h c (by simp)), ih (fun x hx => h x (by simp [hx]))]
    rfl

theorem firstIdx_of_isPrefix (pat l : List Char) (hp : pat ≠ [])
    (h : pat.isPrefixOf l = true) : firstIdx pat l = some 0 := by
  cases l with
  | nil =>
    cases pat with
    | nil => exact absurd rfl hp
    | cons c cs => simp [List.isPrefixOf] at h
  | cons c cs => simp [firstIdx, h]

/-! ## Classifier lemmas (C7) -/

/-- Evaluation form of the classifier: a pure function of the file name. -/
theorem shouldCompile_eval (st : TinyWasm) (fileName filePath : List Char) :
    ShouldCompileToWasm st fileName filePath
      = (fileName == st.mainInputFile || ".wasm.go".data.isSuffixOf fileName) := by
  unfold ShouldCompileToWasm
  split_ifs with h1 h2
  · simp [h1]
  · simp [h2]
  · simp [h1, Bool.eq_false_iff.mpr h2]

/-- C7: the classifier is name-only and path-independent: for every file name
and every path, `ShouldCompileToWasm` returns `true` exactly when the name is
the configured main input file or the name ends in `.wasm.go`, and its
verdict does not depend on the path argument. -/
theorem shouldCompileToWasm_name_only (st : TinyWasm) (fileName filePath : List Char) :
    (ShouldCompileToWasm st fileName filePath = true ↔
      fileName = st.mainInputFile ∨ ".wasm.go".data <:+ fileName) ∧
    (∀ filePath₂, ShouldCompileToWasm st fileName filePath
      = ShouldCompileToWasm st fileName filePath₂) := by
  constructor
  · rw [shouldCompile_eval]
    simp [List.isSuffixOf_iff_suffix]
  · intro filePath₂
    rw [shouldCompile_eval, shouldCompile_eval]

/-! ## Module-name extraction lemmas (C10) -/

theorem modulesLoop_found (parts : List (List Char)) (i : Nat)
    (hi : i + 1 < parts.length)
    (hmod : parts.get ⟨i, Nat.lt_of_succ_lt hi⟩ = "modules".data)
    (hfirst : ∀ j (hj : j < i),
      parts.get ⟨j, Nat.lt_trans hj (Nat.lt_of_succ_lt hi)⟩ ≠ "modules".data) :
    modulesLoop parts = some (parts.get ⟨i + 1, hi⟩) := by
  induction parts generalizing i with
  | nil => simp at hi
  | cons a rest ih =>
    cases rest with
    | nil => simp at hi
    | cons b rest₂ =>
      cases i with
      | zero =>
        simp only [List.get] at hmod
        simp [modulesLoop, hmod, List.get]
      | succ k =>
        have ha : a ≠ "modules".data := by
          have h0 := hfirst 0 (Nat.succ_pos k)
          simpa [List.get] using h0
        rw [modulesLoop, if_neg ha]
        have hi' : k + 1 < (b :: rest₂).length := Nat.lt_of_succ_lt_succ hi
        have hmod' : (b :: rest₂).get ⟨k, Nat.lt_of_succ_lt hi'⟩ = "modules".data := by
          simpa [List.get] using hmod
        have hfirst' : ∀ j (hj : j < k),
            (b :: rest₂).get ⟨j, Nat.lt_trans hj (Nat.lt_of_succ_lt hi')⟩ ≠ "modules".data := by
          intro j hj
          have := hfirst (j + 1) (Nat.succ_lt_succ hj)
          simpa [List.get] using this
        rw [ih k hi' hmod' hfirst']
        rfl

theorem modulesLoop_not_found (parts : List (List Char))
    (h : ∀ i (hi : i + 1 < parts.length),
      parts.get ⟨i, Nat.lt_of_succ_lt hi⟩ ≠ "modules".data) :
    modulesLoop parts = none := by
  induction parts with
  | nil => rfl
  | cons a rest ih =>
    cases rest with
    | nil => rfl
    | cons b rest₂ =>
      have ha : a ≠ "modules".data := by
        have h0 := h 0 (by simp)
        simpa [List.get] using h0
      rw [modulesLoop, if_neg ha]
      refine ih (fun i hi => ?_)
      have := h (i + 1) (Nat.succ_lt_succ hi)
      simpa [List.get] using this

/-- C10: `GetModuleName` returns the segment after the first `modules`
segment that is followed by at least one more segment (with a nil error),
and an error on every path with no such segment. The function is a pure
function of the path, so it mutates no state. -/
theorem getModuleName_spec (filePath : List Char) :
    (∀ i (hi : i + 1 < (splitOnChar '/' filePath).length),
      (splitOnChar '/' filePath).get ⟨i, Nat.lt_of_succ_lt hi⟩ = "modules".data →
      (∀ j (hj : j < i),
        (splitOnChar '/' filePath).get
          ⟨j, Nat.lt_trans hj (Nat.lt_of_succ_lt hi)⟩ ≠ "modules".data) →
      GetModuleName filePath = Except.ok ((splitOnChar '/' filePath).get ⟨i + 1, hi⟩)) ∧
    ((∀ i (hi : i + 1 < (splitOnChar '/' filePath).length),
      (splitOnChar '/' filePath).get ⟨i, Nat.lt_of_succ_lt hi⟩ ≠ "modules".data) →
      GetModuleName filePath =
        Except.error ("could not extract module name from path: ".data ++ filePath)) := by
  constructor
  · intro i hi hmod hfirst
    unfold GetModuleName
    rw [modulesLoop_found _ i hi hmod hfirst]
  · intro h
    unfold GetModuleName
    rw [modulesLoop_not_found _ h]

/-- Witness for C10 at the path `modules/users/wasm/users.wasm.go`. -/
theorem getModuleName_spec_witness :
    GetModuleName "modules/users/wasm/users.wasm.go".data = Except.ok "users".data := by
  have h := (getModuleName_spec "modules/users/wasm/users.wasm.go".data).1 0 (by decide)
    (by decide) (fun j hj => absurd hj (Nat.not_lt_zero j))
  rw [h]
  have hget : (splitOnChar '/' "modules/users/wasm/users.wasm.go".data).get
      ⟨1, by decide⟩ = "users".data := by decide
  rw [hget]

/-! ## Mode-transition lemmas (C5, C6) -/

/-- C5: error atomicity of `Change`: a token failing validation, or naming a
TinyGo mode while TinyGo is not verified installed, makes `Change` report the
corresponding error through `progress` and return with the whole state (in
particular `currentMode` and `activeBuilder`) exactly as before. -/
theorem change_error_atomicity (st : TinyWasm) (m : List Char)
    (mainWasmExists : Bool) (compileResult : Option (List Char)) :
    (validateMode st m = false →
      Change st m mainWasmExists compileResult = (st, [Msg.invalidMode m])) ∧
    (validateMode st m = true → requiresTinyGo st m = true → st.tinyGoInstalled = false →
      Change st m mainWasmExists compileResult = (st, [Msg.cannotInstallTinyGo])) := by
  constructor
  · intro h
    unfold Change
    rw [h]
    simp
  · intro hv ht hi
    unfold Change
    rw [hv, ht, hi]
    simp

/-- Witness for C5 on the sample state and the invalid token `q`. -/
theorem change_error_atomicity_witness :
    Change sampleState "q".data true none
      = (sampleState, [Msg.invalidMode "q".data]) :=
  (change_error_atomicity sampleState "q".data true none).1 (by decide)

/-- C6: a compile failure does not roll back a mode change: when the
transition reaches the compile step and the builder reports an error,
`Change` reports a warning (a message distinct from every error constructor)
and `currentMode` stays at the newly requested mode. -/
theorem change_compile_failure_commits_mode (st : TinyWasm) (m e : List Char)
    (hv : validateMode st m = true)
    (ht : requiresTinyGo st m = true → st.tinyGoInstalled = true) :
    (Change st m true (some e)).1.currentMode = m ∧
    (Change st m true (some e)).2 = [Msg.warningCompilationFailed e] := by
  unfold Change
  rw [hv]
  have hguard : (requiresTinyGo st m && !st.tinyGoInstalled) = false := by
    cases hreq : requiresTinyGo st m
    · simp
    · simp [ht hreq]
  rw [hguard]
  simp [recompileMainWasm, updateCurrentBuilder]

/-- Witness for C6: switching the sample state to `d` with a failing
compile run. -/
theorem change_compile_failure_witness :
    (Change sampleState "d".data true (some "boom".data)).1.currentMode = "d".data ∧
    (Change sampleState "d".data true (some "boom".data)).2
      = [Msg.warningCompilationFailed "boom".data] :=
  change_compile_failure_commits_mode sampleState "d".data "boom".data
    (by decide) (fun _ => rfl)

/-! ## Detector lemmas (C2, C3, C4) -/

theorem applyHeaderRecovery_some (st : TinyWasm) (content mode : List Char)
    (h : getModeFromWasmExecJsHeader content = some mode) :
    applyHeaderRecovery st content =
      { st with currentMode := mode,
                activeBuilder := some (if requiresTinyGo st mode then BuilderId.debug
                  else BuilderId.coding) } := by
  unfold applyHeaderRecovery
  rw [h]

theorem applyHeaderRecovery_none (st : TinyWasm) (content : List Char)
    (h : getModeFromWasmExecJsHeader content = none) :
    applyHeaderRecovery st content =
      if st.tinyGoCompiler then
        { st with activeBuilder := some BuilderId.debug,
                  currentMode := st.config.DebuggingShortcut }
      else
        { st with activeBuilder := some BuilderId.coding,
                  currentMode := st.config.CodingShortcut } := by
  unfold applyHeaderRecovery
  rw [h]

theorem analyze_some_eval (st : TinyWasm) (content : List Char) :
    analyzeWasmExecJsContent st (some content) =
      if countSignatures wasm_execTinyGoSignatures content >
           countSignatures wasm_execGoSignatures content ∧
         0 < countSignatures wasm_execTinyGoSignatures content then
        (applyHeaderRecovery { st with tinyGoCompiler := true, wasmProject := true } content,
         true)
      else if countSignatures wasm_execGoSignatures content >
           countSignatures wasm_execTinyGoSignatures content ∧
         0 < countSignatures wasm_execGoSignatures content then
        (applyHeaderRecovery { st with tinyGoCompiler := false, wasmProject := true } content,
         true)
      else if 0 < countSignatures wasm_execTinyGoSignatures content ∨
              0 < countSignatures wasm_execGoSignatures content then
        (applyHeaderRecovery { st with
            tinyGoCompiler := decide (0 < countSignatures wasm_execTinyGoSignatures content),
            wasmProject := true } content, true)
      else (st, false) := rfl

theorem applyHeaderRecovery_preserves (st : TinyWasm) (content : List Char) :
    (applyHeaderRecovery st content).tinyGoCompiler = st.tinyGoCompiler ∧
    (applyHeaderRecovery st content).wasmProject = st.wasmProject ∧
    (applyHeaderRecovery st content).config = st.config := by
  unfold applyHeaderRecovery
  rcases h : getModeFromWasmExecJsHeader content with _ | mode <;> split_ifs <;> simp

/-- C2: phase-1 signature scoring: a family with a strictly larger non-zero
count wins; a family with at least one match and a zero-count rival wins; a
0-0 count is no detection — `analyzeWasmExecJsContent` returns `false`, the
state (in particular `wasmProject`) is unchanged, and
`detectProjectConfiguration` behaves exactly as if no artifact existed,
falling through to the source-scan phase. -/
theorem analyze_signature_scoring (st : TinyWasm) (content : List Char)
    (goFilesFound : Bool) (payload : Option (List Char)) :
    (countSignatures wasm_execTinyGoSignatures content >
        countSignatures wasm_execGoSignatures content ∧
      0 < countSignatures wasm_execTinyGoSignatures content →
      (analyzeWasmExecJsContent st (some content)).1.tinyGoCompiler = true ∧
      (analyzeWasmExecJsContent st (some content)).1.wasmProject = true ∧
      (analyzeWasmExecJsContent st (some content)).2 = true) ∧
    (countSignatures wasm_execGoSignatures content >
        countSignatures wasm_execTinyGoSignatures content ∧
      0 < countSignatures wasm_execGoSignatures content →
      (analyzeWasmExecJsContent st (some content)).1.tinyGoCompiler = false ∧
      (analyzeWasmExecJsContent st (some content)).1.wasmProject = true ∧
      (analyzeWasmExecJsContent st (some content)).2 = true) ∧
    (0 < countSignatures wasm_execTinyGoSignatures content ∧
      countSignatures wasm_execGoSignatures content = 0 →
      (analyzeWasmExecJsContent st (some content)).1.tinyGoCompiler = true ∧
      (analyzeWasmExecJsContent st (some content)).1.wasmProject = true ∧
      (analyzeWasmExecJsContent st (some content)).2 = true) ∧
    (0 < countSignatures wasm_execGoSignatures content ∧
      countSignatures wasm_execTinyGoSignatures content = 0 →
      (analyzeWasmExecJsContent st (some content)).1.tinyGoCompiler = false ∧
      (analyzeWasmExecJsContent st (some content)).1.wasmProject = true ∧
      (analyzeWasmExecJsContent st (some content)).2 = true) ∧
    (countSignatures wasm_execTinyGoSignatures content = 0 ∧
      countSignatures wasm_execGoSignatures content = 0 →
      (analyzeWasmExecJsContent st (some content)).2 = false ∧
      (analyzeWasmExecJsContent st (some content)).1 = st ∧
      detectProjectConfiguration st (some content) goFilesFound payload
        = detectProjectConfiguration st none goFilesFound payload) := by
  refine ⟨fun h => ?_, fun h => ?_, fun h => ?_, fun h => ?_, fun h => ?_⟩
  · rw [analyze_some_eval, if_pos h]
    exact ⟨(applyHeaderRecovery_preserves _ _).1, (applyHeaderRecovery_preserves _ _).2.1, rfl⟩
  · rw [analyze_some_eval, if_neg (by omega), if_pos h]
    exact ⟨(applyHeaderRecovery_preserves _ _).1, (applyHeaderRecovery_preserves _ _).2.1, rfl⟩
  · rw [analyze_some_eval, if_pos (by omega)]
    exact ⟨(applyHeaderRecovery_preserves _ _).1, (applyHeaderRecovery_preserves _ _).2.1, rfl⟩
  · rw [analyze_some_eval, if_neg (by omega), if_pos (by omega)]
    exact ⟨(applyHeaderRecovery_preserves _ _).1, (applyHeaderRecovery_preserves _ _).2.1, rfl⟩
  · have hanalyze : analyzeWasmExecJsContent st (some content) = (st, false) := by
      rw [analyze_some_eval, if_neg (by omega), if_neg (by omega), if_neg (by omega)]
    refine ⟨by rw [hanalyze], by rw [hanalyze], ?_⟩
    have hfold : detectFromExistingWasmExecJs st (some content) = (st, false) := hanalyze
    have hfold₂ : detectFromExistingWasmExecJs st none = (st, false) := rfl
    unfold detectProjectConfiguration
    rw [hfold, hfold₂]

/-- Witness for C2: a TinyGo-signature artifact is detected as TinyGo. -/
theorem analyze_signature_scoring_witness :
    (analyzeWasmExecJsContent sampleState
      (some "runtime.sleepTicks runtime.ticks".data)).1.tinyGoCompiler = true ∧
    (analyzeWasmExecJsContent sampleState
      (some "runtime.sleepTicks runtime.ticks".data)).1.wasmProject = true ∧
    (analyzeWasmExecJsContent sampleState
      (some "runtime.sleepTicks runtime.ticks".data)).2 = true :=
  (analyze_signature_scoring sampleState "runtime.sleepTicks runtime.ticks".data
    false none).1 (by decide)

theorem updateCurrentBuilder_consistent (st : TinyWasm) (m : List Char)
    (hwf : WellFormedShortcuts st.config) :
    modeBuilderConsistent (updateCurrentBuilder st m) := by
  obtain ⟨-, -, -, h12, h13, h23⟩ := hwf
  unfold updateCurrentBuilder builderForMode modeBuilderConsistent
  refine ⟨fun hm => ?_, fun hm => ?_, fun hm => ?_⟩ <;>
    simp_all [beq_iff_eq] <;> simp_all [Ne.symm h12, Ne.symm h13, Ne.symm h23]

/-- Counterexample to C3: starting from the sample state, running the
detector on an artifact carrying the header `mode=p` (production) and a
TinyGo signature leaves `currentMode = p` paired with the debug builder, not
the production builder. -/
theorem builder_mode_consistency_counterexample :
    ¬ modeBuilderConsistent
      (analyzeWasmExecJsContent sampleState
        (some "// TinyWasm: mode=p\nruntime.sleepTicks".data)).1 := by
  decide

/-- C3 (amended): after `updateCurrentBuilder` (hence after every completed
`Change`) the active builder is the one registered for `currentMode`, and the
detector's signature-default path also establishes the invariant; but the
detector's header-recovery path assigns the debug builder to every
TinyGo-requiring mode, so a recovered production mode is paired with the
debug builder. -/
theorem builder_mode_consistency_amended (st : TinyWasm) (m : List Char)
    (mainWasmExists : Bool) (compileResult : Option (List Char)) (content : List Char) :
    (WellFormedShortcuts st.config →
      modeBuilderConsistent (updateCurrentBuilder st m)) ∧
    (WellFormedShortcuts st.config → modeBuilderConsistent st →
      modeBuilderConsistent (Change st m mainWasmExists compileResult).1) ∧
    (∀ mode, getModeFromWasmExecJsHeader content = some mode →
      requiresTinyGo st mode = true →
      (0 < countSignatures wasm_execTinyGoSignatures content ∨
       0 < countSignatures wasm_execGoSignatures content) →
      (analyzeWasmExecJsContent st (some content)).1.activeBuilder
        = some BuilderId.debug) ∧
    (WellFormedShortcuts st.config → modeBuilderConsistent st →
      getModeFromWasmExecJsHeader content = none →
      modeBuilderConsistent (analyzeWasmExecJsContent st (some content)).1) := by
  refine ⟨fun hwf => updateCurrentBuilder_consistent st m hwf, fun hwf hinv => ?_,
    fun mode hmode hreq hcount => ?_, fun hwf hinv hnone => ?_⟩
  · simp only [Change]
    split_ifs with hval hguard hmain
    · exact hinv
    · exact hinv
    · exact updateCurrentBuilder_consistent st m hwf
    · cases recompileMainWasm (updateCurrentBuilder st m) mainWasmExists compileResult with
      | none => exact updateCurrentBuilder_consistent st m hwf
      | some e => exact updateCurrentBuilder_consistent st m hwf
  · have hbuilder : ∀ st' : TinyWasm, st'.config = st.config →
        (applyHeaderRecovery st' content).activeBuilder = some BuilderId.debug := by
      intro st' hcfg
      rw [applyHeaderRecovery_some st' content mode hmode]
      have : requiresTinyGo st' mode = true := by
        unfold requiresTinyGo at hreq ⊢
        rw [hcfg]
        exact hreq
      simp [this]
    rw [analyze_some_eval]
    split_ifs with h1 h2 h3
    · exact hbuilder _ rfl
    · exact hbuilder _ rfl
    · exact hbuilder _ rfl
  · obtain ⟨-, -, -, h12, h13, h23⟩ := hwf
    have hdefault : ∀ st' : TinyWasm, st'.config = st.config →
        modeBuilderConsistent (applyHeaderRecovery st' content) := by
      intro st' hcfg
      rw [applyHeaderRecovery_none st' content hnone]
      split_ifs with htc <;>
        refine ⟨fun hm => ?_, fun hm => ?_, fun hm => ?_⟩ <;>
          simp_all <;> simp_all [Ne.symm h12, Ne.symm h13, Ne.symm h23]
    rw [analyze_some_eval]
    split_ifs with h1 h2 h3
    · exact hdefault _ rfl
    · exact hdefault _ rfl
    · exact hdefault _ rfl
    · exact hinv

/-- Witness for C3's amended theorem: changing the sample state to `p` pairs
the production builder with production mode. -/
theorem builder_mode_consistency_amended_witness :
    modeBuilderConsistent (Change sampleState "p".data true none).1 :=
  (builder_mode_consistency_amended sampleState "p".data true none []).2.1
    (by decide) (by decide)

/-- Counterexample to C4: the detector accepts the header token `zzz` even
though it fails registry validation, instead of falling back to the
family-consistent default mode `c`. -/
theorem header_override_unvalidated_counterexample :
    validateMode sampleState "zzz".data = false ∧
    (analyzeWasmExecJsContent sampleState
      (some "// TinyWasm: mode=zzz\nruntime.wasmExit".data)).1.currentMode = "zzz".data ∧
    "zzz".data ≠ sampleState.config.CodingShortcut := by
  refine ⟨by decide, ?_, by decide⟩
  decide

/-- C4 (amended): during phase-1 detection, any token parsed from the
first-line header overrides the signature-based default with no registry
validation; only when no header token is recovered does the detector pick
the family-consistent default (debugging for a TinyGo win or non-zero tie,
coding for a Go win). -/
theorem header_override_amended (st : TinyWasm) (content : List Char) :
    (∀ mode, getModeFromWasmExecJsHeader content = some mode →
      (0 < countSignatures wasm_execTinyGoSignatures content ∨
       0 < countSignatures wasm_execGoSignatures content) →
      (analyzeWasmExecJsContent st (some content)).1.currentMode = mode) ∧
    (getModeFromWasmExecJsHeader content = none →
      ((countSignatures wasm_execTinyGoSignatures content >
          countSignatures wasm_execGoSignatures content ∧
        0 < countSignatures wasm_execTinyGoSignatures content →
        (analyzeWasmExecJsContent st (some content)).1.currentMode
          = st.config.DebuggingShortcut) ∧
      (countSignatures wasm_execGoSignatures content >
          countSignatures wasm_execTinyGoSignatures content ∧
        0 < countSignatures wasm_execGoSignatures content →
        (analyzeWasmExecJsContent st (some content)).1.currentMode
          = st.config.CodingShortcut) ∧
      (countSignatures wasm_execTinyGoSignatures content =
          countSignatures wasm_execGoSignatures content ∧
        0 < countSignatures wasm_execTinyGoSignatures content →
        (analyzeWasmExecJsContent st (some content)).1.currentMode
          = st.config.DebuggingShortcut))) := by
  constructor
  · intro mode hmode hcount
    have hcur : ∀ st' : TinyWasm, (applyHeaderRecovery st' content).currentMode = mode := by
      intro st'
      rw [applyHeaderRecovery_some st' content mode hmode]
    rw [analyze_some_eval]
    split_ifs with h1 h2 h3
    · exact hcur _
    · exact hcur _
    · exact hcur _
  · intro hnone
    have hcur : ∀ st' : TinyWasm, st'.config = st.config →
        (applyHeaderRecovery st' content).currentMode =
          (if st'.tinyGoCompiler then st.config.DebuggingShortcut
           else st.config.CodingShortcut) := by
      intro st' hcfg
      rw [applyHeaderRecovery_none st' content hnone]
      split_ifs <;> simp [hcfg]
    refine ⟨fun h => ?_, fun h => ?_, fun h => ?_⟩
    · rw [analyze_some_eval, if_pos h]
      simpa using hcur { st with tinyGoCompiler := true, wasmProject := true } rfl
    · rw [analyze_some_eval, if_neg (by omega), if_pos h]
      simpa using hcur { st with tinyGoCompiler := false, wasmProject := true } rfl
    · rw [analyze_some_eval, if_neg (by omega), if_neg (by omega), if_pos (by omega)]
      have hd : decide (0 < countSignatures wasm_execTinyGoSignatures content) = true := by
        simpa using h.2
      have hstep := hcur
        { st with
          tinyGoCompiler := decide (0 < countSignatures wasm_execTinyGoSignatures content),
          wasmProject := true } rfl
      simpa [hd] using hstep

/-! ## Generator-state lemmas (C8, C9, C1) -/

theorem cacheStore_preserves (st : TinyWasm) (mode : List Char) (b : Bool)
    (n : List Char) :
    (cacheStore st mode b n).currentMode = st.currentMode ∧
    (cacheStore st mode b n).config = st.config ∧
    (cacheStore st mode b n).wasmProject = st.wasmProject ∧
    (cacheStore st mode b n).tinyGoInstalled = st.tinyGoInstalled ∧
    (cacheStore st mode b n).activeBuilder = st.activeBuilder ∧
    (cacheStore st mode b n).mainOutputFileNameWithExtension
      = st.mainOutputFileNameWithExtension := by
  unfold cacheStore
  split_ifs <;> exact ⟨rfl, rfl, rfl, rfl, rfl, rfl⟩

theorem gen_preserves (st : TinyWasm) (p : Option (List Char)) :
    (javascriptForInitializing st p).2.currentMode = st.currentMode ∧
    (javascriptForInitializing st p).2.config = st.config ∧
    (javascriptForInitializing st p).2.wasmProject = st.wasmProject ∧
    (javascriptForInitializing st p).2.tinyGoInstalled = st.tinyGoInstalled ∧
    (javascriptForInitializing st p).2.activeBuilder = st.activeBuilder ∧
    (javascriptForInitializing st p).2.mainOutputFileNameWithExtension
      = st.mainOutputFileNameWithExtension := by
  unfold javascriptForInitializing
  split_ifs with h1
  · exact ⟨rfl, rfl, rfl, rfl, rfl, rfl⟩
  · cases hl : cacheLookup st (Value st) with
    | some cached => exact ⟨rfl, rfl, rfl, rfl, rfl, rfl⟩
    | none =>
      cases p with
      | none => exact ⟨rfl, rfl, rfl, rfl, rfl, rfl⟩
      | some wasmJs =>
        cases hb : st.activeBuilder with
        | none => exact ⟨rfl, rfl, rfl, rfl, hb, rfl⟩
        | some b =>
          have h := cacheStore_preserves st (Value st) (WasmProjectTinyGoJsUse st).2
            (normalizeJs (headerLine (Value st) ++ wasmJs
              ++ glueCode st.mainOutputFileNameWithExtension))
          exact ⟨h.1, h.2.1, h.2.2.1, h.2.2.2.1, h.2.2.2.2.1.trans hb, h.2.2.2.2.2⟩

theorem updateCurrentBuilder_fields (st : TinyWasm) (m : List Char) :
    (updateCurrentBuilder st m).currentMode = m ∧
    (updateCurrentBuilder st m).config = st.config ∧
    (updateCurrentBuilder st m).wasmProject = st.wasmProject :=
  ⟨rfl, rfl, rfl⟩

theorem cacheLookup_updateCurrentBuilder (st : TinyWasm) (m A : List Char) :
    cacheLookup (updateCurrentBuilder st m) A = cacheLookup st A := rfl

theorem validateMode_congr (st' st : TinyWasm) (m : List Char)
    (h : st'.config = st.config) : validateMode st' m = validateMode st m := by
  unfold validateMode
  rw [h]

theorem cacheLookup_some_ne_nil (st : TinyWasm) (m x : List Char)
    (h : cacheLookup st m = some x) : x ≠ [] := by
  unfold cacheLookup at h
  split_ifs at h with h1 h2 h3
  · simp only [Bool.and_eq_true, bne_iff_ne] at h1
    injection h with hx
    rw [← hx]
    exact h1.2
  · simp only [Bool.and_eq_true, bne_iff_ne] at h2
    injection h with hx
    rw [← hx]
    exact h2.2
  · simp only [Bool.and_eq_true, bne_iff_ne] at h3
    injection h with hx
    rw [← hx]
    exact h3.2

theorem cacheStore_eq_C (st : TinyWasm) (A : List Char) (b : Bool) (n : List Char)
    (hc : A = st.config.CodingShortcut) :
    cacheStore st A b n = { st with modeC_go_wasm_exec_cache := n } := by
  unfold cacheStore
  rw [if_pos (by simp [hc])]

theorem cacheStore_eq_D (st : TinyWasm) (A : List Char) (b : Bool) (n : List Char)
    (hc : A ≠ st.config.CodingShortcut) (hd : A = st.config.DebuggingShortcut) :
    cacheStore st A b n = { st with modeD_tinygo_wasm_exec_cache := n } := by
  unfold cacheStore
  rw [if_neg (by simp [hc]), if_pos (by simp [hd])]

theorem cacheStore_eq_P (st : TinyWasm) (A : List Char) (b : Bool) (n : List Char)
    (hc : A ≠ st.config.CodingShortcut) (hd : A ≠ st.config.DebuggingShortcut)
    (hp : A = st.config.ProductionShortcut) :
    cacheStore st A b n = { st with modeP_tinygo_wasm_exec_cache := n } := by
  unfold cacheStore
  rw [if_neg (by simp [hc]), if_neg (by simp [hd]), if_pos (by simp [hp])]

theorem cacheLookup_store_same (st : TinyWasm) (A : List Char) (b : Bool) (n : List Char)
    (hA : validateMode st A = true) (hn : n ≠ []) :
    cacheLookup (cacheStore st A b n) A = some n := by
  unfold validateMode at hA
  simp only [Bool.or_eq_true, beq_iff_eq] at hA
  by_cases hc : A = st.config.CodingShortcut
  · rw [cacheStore_eq_C st A b n hc]
    unfold cacheLookup
    rw [if_pos (by simp only [Bool.and_eq_true, bne_iff_ne, beq_iff_eq]; exact ⟨hc, hn⟩)]
  · by_cases hd : A = st.config.DebuggingShortcut
    · rw [cacheStore_eq_D st A b n hc hd]
      unfold cacheLookup
      rw [if_neg (by simp [hc]), if_pos
        (by simp only [Bool.and_eq_true, bne_iff_ne, beq_iff_eq]; exact ⟨hd, hn⟩)]
    · have hp : A = st.config.ProductionShortcut := by
        rcases hA with (h | h) | h
        · exact absurd h hc
        · exact absurd h hd
        · exact h
      rw [cacheStore_eq_P st A b n hc hd hp]
      unfold cacheLookup
      rw [if_neg (by simp [hc]), if_neg (by simp [hd]), if_pos
        (by simp only [Bool.and_eq_true, bne_iff_ne, beq_iff_eq]; exact ⟨hp, hn⟩)]

theorem cacheLookup_store_other (st : TinyWasm) (A B : List Char) (b : Bool) (n : List Char)
    (hB : validateMode st B = true) (hAB : A ≠ B) :
    cacheLookup (cacheStore st B b n) A = cacheLookup st A := by
  unfold validateMode at hB
  simp only [Bool.or_eq_true, beq_iff_eq] at hB
  by_cases hc : B = st.config.CodingShortcut
  · rw [cacheStore_eq_C st B b n hc]
    have hac : A ≠ st.config.CodingShortcut := fun h => hAB (h.trans hc.symm)
    unfold cacheLookup
    simp [hac]
  · by_cases hd : B = st.config.DebuggingShortcut
    · rw [cacheStore_eq_D st B b n hc hd]
      have had : A ≠ st.config.DebuggingShortcut := fun h => hAB (h.trans hd.symm)
      unfold cacheLookup
      simp [had]
    · have hp : B = st.config.ProductionShortcut := by
        rcases hB with (h | h) | h
        · exact absurd h hc
        · exact absurd h hd
        · exact h
      rw [cacheStore_eq_P st B b n hc hd hp]
      have hap : A ≠ st.config.ProductionShortcut := fun h => hAB (h.trans hp.symm)
      unfold cacheLookup
      simp [hap]

theorem dropWhile_append_singleton_ne_nil (p : Char → Bool) (xs : List Char) (a : Char)
    (h : p a = false) : (xs ++ [a]).dropWhile p ≠ [] := by
  induction xs with
  | nil => simp [List.dropWhile, h]
  | cons x xs ih =>
    rw [List.cons_append, List.dropWhile_cons]
    split_ifs
    · exact ih
    · simp

theorem trimRightWs_cons_ne_nil (c : Char) (s : List Char) (h : isTrailWs c = false) :
    trimRightWs (c :: s) ≠ [] := by
  unfold trimRightWs
  intro hcontra
  have h2 := List.reverse_eq_nil_iff.mp hcontra
  rw [List.reverse_cons] at h2
  exact dropWhile_append_singleton_ne_nil isTrailWs s.reverse c h h2

theorem joinNl_cons_ne_nil (x : List Char) (ls : List (List Char)) (hx : x ≠ []) :
    joinNl (x :: ls) ≠ [] := by
  cases ls with
  | nil => exact hx
  | cons y ys =>
    rw [joinNl_cons x (y :: ys) (by simp)]
    simp [hx]

theorem replaceCR_cons (c : Char) (z : List Char) (h : c ≠ '\r') :
    replaceCR (c :: z) = c :: replaceCR z := by
  unfold replaceCR
  simp [h]

theorem normalizeJs_cons_ne_nil (c : Char) (xs : List Char)
    (h1 : c ≠ '\r') (h2 : c ≠ '\n') (h3 : isTrailWs c = false) :
    normalizeJs (c :: xs) ≠ [] := by
  unfold normalizeJs splitOnNl
  rw [replaceCRLF_cons xs h1, replaceCR_cons c _ h1]
  rw [show splitOnChar '\n' (c :: replaceCR (replaceCRLF xs))
      = consField c (splitOnChar '\n' (replaceCR (replaceCRLF xs))) from by
    simp only [splitOnChar]
    rw [if_neg h2]]
  rcases hsp : splitOnChar '\n' (replaceCR (replaceCRLF xs)) with _ | ⟨s0, ss⟩
  · exact absurd hsp (splitOnChar_ne_nil _ _)
  · rw [consField, List.map_cons]
    exact joinNl_cons_ne_nil _ _ (trimRightWs_cons_ne_nil c s0 h3)

theorem normalizeJs_headered_ne_nil (m rest : List Char) :
    normalizeJs (headerLine m ++ rest) ≠ [] := by
  have hshape : headerLine m ++ rest
      = '/' :: ("/ TinyWasm: mode=".data ++ (m ++ '\n' :: rest)) := by
    unfold headerLine
    rw [show "// TinyWasm: mode=".data = '/' :: "/ TinyWasm: mode=".data from rfl]
    simp
  rw [hshape]
  exact normalizeJs_cons_ne_nil '/' _ (by decide) (by decide) (by decide)

theorem gen_ok_cache (st : TinyWasm) (p : Option (List Char)) (s₁ : List Char)
    (st₁ : TinyWasm)
    (hproj : st.wasmProject = true)
    (hA : validateMode st (Value st) = true)
    (h : javascriptForInitializing st p = (Except.ok s₁, st₁)) :
    cacheLookup st₁ (Value st) = some s₁ ∧ s₁ ≠ [] := by
  unfold javascriptForInitializing at h
  rw [if_neg (by simp [WasmProjectTinyGoJsUse, hproj])] at h
  cases hl : cacheLookup st (Value st) with
  | some cached =>
    rw [hl] at h
    simp only [Prod.mk.injEq, Except.ok.injEq] at h
    obtain ⟨hx, hst⟩ := h
    subst hx
    subst hst
    exact ⟨hl, cacheLookup_some_ne_nil st (Value st) cached hl⟩
  | none =>
    rw [hl] at h
    cases p with
    | none => exact absurd h (by simp)
    | some w =>
      cases hb : st.activeBuilder with
      | none =>
        rw [hb] at h
        exact absurd h (by simp)
      | some bb =>
        rw [hb] at h
        simp only [Prod.mk.injEq, Except.ok.injEq] at h
        obtain ⟨hx, hst⟩ := h
        subst hx
        subst hst
        have hrw : headerLine (Value st) ++ w ++ glueCode st.mainOutputFileNameWithExtension
            = headerLine (Value st) ++ (w ++ glueCode st.mainOutputFileNameWithExtension) :=
          List.append_assoc _ _ _
        rw [hrw]
        exact ⟨cacheLookup_store_same st (Value st) _ _ hA (normalizeJs_headered_ne_nil _ _),
          normalizeJs_headered_ne_nil _ _⟩

theorem value_of_fields (st' : TinyWasm) (m : List Char) (hm : m ≠ [])
    (h1 : st'.currentMode = m) : Value st' = m := by
  unfold Value
  rw [h1, if_neg hm]

theorem gen_hit (st : TinyWasm) (p : Option (List Char)) (x : List Char)
    (hproj : st.wasmProject = true)
    (hl : cacheLookup st (Value st) = some x) :
    (javascriptForInitializing st p).1 = Except.ok x := by
  unfold javascriptForInitializing
  rw [if_neg (by simp [WasmProjectTinyGoJsUse, hproj]), hl]

theorem gen_lookup_other (st : TinyWasm) (p : Option (List Char)) (A : List Char)
    (hV : validateMode st (Value st) = true)
    (hAV : A ≠ Value st) :
    cacheLookup ((javascriptForInitializing st p).2) A = cacheLookup st A := by
  unfold javascriptForInitializing
  split_ifs with h1
  · rfl
  · cases hl : cacheLookup st (Value st) with
    | some cached => rfl
    | none =>
      cases p with
      | none => rfl
      | some w =>
        cases hb : st.activeBuilder with
        | none => rfl
        | some bb => exact cacheLookup_store_other st A (Value st) _ _ hV hAV

theorem not_goSpace_facts (c : Char) (h : isGoSpace c = false) :
    c ≠ '\r' ∧ c ≠ '\n' ∧ c ≠ ' ' ∧ c ≠ '\t' ∧ isTrailWs c = false := by
  refine ⟨?_, ?_, ?_, ?_, ?_⟩
  · intro hc; rw [hc] at h; exact absurd h (by decide)
  · intro hc; rw [hc] at h; exact absurd h (by decide)
  · intro hc; rw [hc] at h; exact absurd h (by decide)
  · intro hc; rw [hc] at h; exact absurd h (by decide)
  · unfold isGoSpace at h
    unfold isTrailWs
    simp only [Bool.or_eq_false_iff, decide_eq_false_iff_not] at h
    simp [h.1.1.1.1.1, h.1.1.1.1.2]

theorem getMode_of_header_line (mode T : List Char) (hm : cleanModeToken mode) :
    getModeFromWasmExecJsHeader (("// TinyWasm: mode=".data ++ mode) ++ '\n' :: T)
      = some mode := by
  obtain ⟨hne, hchars⟩ := hm
  have hlitNL : ∀ c ∈ ("// TinyWasm: mode=".data : List Char), c ≠ '\n' := by decide
  have hnoNL : ∀ c ∈ "// TinyWasm: mode=".data ++ mode, c ≠ '\n' := by
    intro c hc
    rcases List.mem_append.mp hc with h | h
    · exact hlitNL c h
    · exact (not_goSpace_facts c (hchars c h).1).2.1
  have hsplit18 : ("// TinyWasm: mode=".data : List Char)
      = "// TinyWasm: ".data ++ "mode=".data := by decide
  have hpre : ("// TinyWasm: ".data).isPrefixOf ("// TinyWasm: mode=".data ++ mode)
      = true := by
    rw [hsplit18, List.append_assoc]
    exact isPrefixOf_self_append _ _
  have htrim : trimPrefixStr "// TinyWasm: ".data ("// TinyWasm: mode=".data ++ mode)
      = "mode=".data ++ mode := by
    unfold trimPrefixStr
    rw [if_pos hpre, hsplit18, List.append_assoc]
    exact List.drop_left _ _
  have hm5 : ∀ c ∈ ("mode=".data : List Char), isGoSpace c = false := by decide
  have hts : trimSpace ("mode=".data ++ mode) = "mode=".data ++ mode := by
    refine trimSpace_eq_self _ ?_
    intro c hc
    rcases List.mem_append.mp hc with h | h
    · exact hm5 c h
    · exact (hchars c h).1
  have hlow : ("mode=".data ++ mode).map Char.toLower
      = "mode=".data ++ mode.map Char.toLower := by
    rw [List.map_append,
      show List.map Char.toLower "mode=".data = "mode=".data from by decide]
  have hfidx : firstIdx "mode=".data (("mode=".data ++ mode).map Char.toLower)
      = some 0 := by
    rw [hlow]
    exact firstIdx_of_isPrefix _ _ (by decide) (isPrefixOf_self_append _ _)
  have hdrop : ("mode=".data ++ mode).drop (0 + ("mode=".data).length) = mode := by
    rw [Nat.zero_add]
    exact List.drop_left _ _
  have hidxany : indexAny "; \t".data mode = none := by
    refine indexAny_none _ _ ?_
    intro c hc
    have hfacts := not_goSpace_facts c (hchars c hc).1
    have hsemi := (hchars c hc).2
    simp only [List.mem_cons, List.not_mem_nil, or_false]
    push_neg
    exact ⟨by simpa using hsemi, hfacts.2.2.1, hfacts.2.2.2.1⟩
  have hts2 : trimSpace mode = mode :=
    trimSpace_eq_self _ (fun c hc => (hchars c hc).1)
  simp only [getModeFromWasmExecJsHeader]
  rw [takeUntilNl_append _ _ hnoNL, if_pos hpre, htrim, hts, hfidx]
  dsimp only
  rw [hdrop, hidxany]
  dsimp only
  rw [hts2, if_pos hne]

theorem getMode_of_headered (mode tail : List Char) (hm : cleanModeToken mode) :
    getModeFromWasmExecJsHeader (normalizeJs (headerLine mode ++ tail)) = some mode := by
  obtain ⟨hne, hchars⟩ := hm
  have hlitCR : ∀ c ∈ ("// TinyWasm: mode=".data : List Char), c ≠ '\r' := by decide
  have hlitNL2 : ∀ c ∈ ("// TinyWasm: mode=".data : List Char), c ≠ '\n' := by decide
  have hnoCR : ∀ c ∈ "// TinyWasm: mode=".data ++ mode, c ≠ '\r' := by
    intro c hc
    rcases List.mem_append.mp hc with h | h
    · exact hlitCR c h
    · exact (not_goSpace_facts c (hchars c h).1).1
  have hnoNL : ∀ c ∈ "// TinyWasm: mode=".data ++ mode, c ≠ '\n' := by
    intro c hc
    rcases List.mem_append.mp hc with h | h
    · exact hlitNL2 c h
    · exact (not_goSpace_facts c (hchars c h).1).2.1
  have hshape : headerLine mode ++ tail
      = ("// TinyWasm: mode=".data ++ mode) ++ '\n' :: tail := by
    unfold headerLine
    simp [List.append_assoc]
  rw [hshape]
  have h1 : replaceCRLF (("// TinyWasm: mode=".data ++ mode) ++ '\n' :: tail)
      = ("// TinyWasm: mode=".data ++ mode) ++ '\n' :: replaceCRLF tail := by
    rw [replaceCRLF_append _ _ hnoCR, replaceCRLF_cons tail (by decide)]
  have h2 : replaceCR (("// TinyWasm: mode=".data ++ mode) ++ '\n' :: replaceCRLF tail)
      = ("// TinyWasm: mode=".data ++ mode)
        ++ '\n' :: replaceCR (replaceCRLF tail) := by
    rw [show replaceCR (("// TinyWasm: mode=".data ++ mode) ++ '\n' :: replaceCRLF tail)
        = replaceCR ("// TinyWasm: mode=".data ++ mode)
          ++ replaceCR ('\n' :: replaceCRLF tail) from List.map_append _ _ _]
    rw [replaceCR_eq_self _ hnoCR, replaceCR_cons '\n' _ (by decide)]
  have h3 : splitOnNl (("// TinyWasm: mode=".data ++ mode)
        ++ '\n' :: replaceCR (replaceCRLF tail))
      = ("// TinyWasm: mode=".data ++ mode)
        :: splitOnNl (replaceCR (replaceCRLF tail)) := by
    unfold splitOnNl
    exact splitOnChar_append '\n' _ _ hnoNL
  have h4 : trimRightWs ("// TinyWasm: mode=".data ++ mode)
      = "// TinyWasm: mode=".data ++ mode := by
    rcases List.eq_nil_or_concat' mode with hnil | ⟨m2, a, hma⟩
    · exact absurd hnil hne
    · rw [hma, ← List.append_assoc]
      refine trimRightWs_concat _ ?_
      exact (not_goSpace_facts a (hchars a (by rw [hma]; simp)).1).2.2.2.2
  have hX : (splitOnNl (replaceCR (replaceCRLF tail))).map trimRightWs ≠ [] := by
    intro hx
    exact splitOnChar_ne_nil '\n' (replaceCR (replaceCRLF tail))
      (List.map_eq_nil.mp hx)
  have h5 : normalizeJs (("// TinyWasm: mode=".data ++ mode) ++ '\n' :: tail)
      = ("// TinyWasm: mode=".data ++ mode)
        ++ '\n' :: joinNl ((splitOnNl (replaceCR (replaceCRLF tail))).map trimRightWs) := by
    unfold normalizeJs
    rw [h1, h2]
    rw [show splitOnNl ((("// TinyWasm: mode=".data ++ mode))
        ++ '\n' :: replaceCR (replaceCRLF tail))
      = ("// TinyWasm: mode=".data ++ mode)
        :: splitOnNl (replaceCR (replaceCRLF tail)) from h3]
    rw [List.map_cons, h4]
    exact joinNl_cons _ _ hX
  rw [h5]
  exact getMode_of_header_line mode _ ⟨hne, hchars⟩

theorem cacheLookup_all_empty (st : TinyWasm) (m : List Char)
    (hC : st.modeC_go_wasm_exec_cache = [])
    (hD : st.modeD_tinygo_wasm_exec_cache = [])
    (hP : st.modeP_tinygo_wasm_exec_cache = []) :
    cacheLookup st m = none := by
  unfold cacheLookup
  rw [hC, hD, hP]
  simp

/-- C1: round-trip of the mode header: generating the runtime-init script
(with a clean mode token and empty cache slots) and running the detector on
the generated content recovers exactly the mode active at generation time as
`currentMode`, provided the content carries at least one toolchain signature
(as every real wasm_exec.js payload does). -/
theorem javascript_header_roundtrip
    (st st₂ : TinyWasm) (payload js : List Char) (st₁ : TinyWasm)
    (hproj : st.wasmProject = true)
    (hmode : cleanModeToken (Value st))
    (hC : st.modeC_go_wasm_exec_cache = [])
    (hD : st.modeD_tinygo_wasm_exec_cache = [])
    (hP : st.modeP_tinygo_wasm_exec_cache = [])
    (hgen : javascriptForInitializing st (some payload) = (Except.ok js, st₁))
    (hsig : 0 < countSignatures wasm_execTinyGoSignatures js ∨
            0 < countSignatures wasm_execGoSignatures js) :
    (analyzeWasmExecJsContent st₂ (some js)).2 = true ∧
    (analyzeWasmExecJsContent st₂ (some js)).1.currentMode = Value st := by
  unfold javascriptForInitializing at hgen
  rw [if_neg (by simp [WasmProjectTinyGoJsUse, hproj]),
    cacheLookup_all_empty st (Value st) hC hD hP] at hgen
  cases hb : st.activeBuilder with
  | none =>
    rw [hb] at hgen
    exact absurd hgen (by simp)
  | some bb =>
    rw [hb] at hgen
    simp only [Prod.mk.injEq, Except.ok.injEq] at hgen
    obtain ⟨hjs, -⟩ := hgen
    have hheader : getModeFromWasmExecJsHeader js = some (Value st) := by
      rw [← hjs, List.append_assoc]
      exact getMode_of_headered (Value st) _ hmode
    have hcur : ∀ stX : TinyWasm,
        (applyHeaderRecovery stX js).currentMode = Value st := by
      intro stX
      rw [applyHeaderRecovery_some stX js (Value st) hheader]
    constructor
    · rw [analyze_some_eval]
      split_ifs with h1 h2 h3
      · rfl
      · rfl
      · rfl
    · rw [analyze_some_eval]
      split_ifs with h1 h2 h3
      · exact hcur _
      · exact hcur _
      · exact hcur _

set_option maxRecDepth 4000 in
/-- Witness for C1: the sample state generates in coding mode from a payload
carrying a Go signature; the detector applied to the output recovers mode
`c`. -/
theorem javascript_header_roundtrip_witness :
    (analyzeWasmExecJsContent sampleState (some sampleGenOutput)).2 = true ∧
    (analyzeWasmExecJsContent sampleState (some sampleGenOutput)).1.currentMode
      = Value sampleState :=
  javascript_header_roundtrip sampleState sampleState "runtime.wasmExit".data
    sampleGenOutput { sampleState with modeC_go_wasm_exec_cache := sampleGenOutput }
    rfl (by decide) rfl rfl rfl rfl (by decide)

/-- C8: generator caching: a second `javascriptForInitializing` call in the
same (registered) mode returns the byte-identical cached string regardless of
the payload now readable from disk; and after switching mode A to B and back
to A without `ClearJavaScriptCache`, the second visit to A returns the string
cached on the first visit even if the underlying payload was mutated in
between. -/
theorem generator_caching :
    (∀ (st : TinyWasm) (p p₂ : Option (List Char)) (s₁ : List Char) (st₁ : TinyWasm),
      st.wasmProject = true →
      validateMode st (Value st) = true →
      javascriptForInitializing st p = (Except.ok s₁, st₁) →
      (javascriptForInitializing st₁ p₂).1 = Except.ok s₁) ∧
    (∀ (st : TinyWasm) (B : List Char) (p₁ p₂ p₃ : Option (List Char))
        (s₁ : List Char) (st₁ : TinyWasm),
      WellFormedShortcuts st.config →
      st.wasmProject = true →
      validateMode st (Value st) = true →
      validateMode st B = true →
      B ≠ Value st →
      javascriptForInitializing st p₁ = (Except.ok s₁, st₁) →
      (javascriptForInitializing
        (updateCurrentBuilder
          ((javascriptForInitializing (updateCurrentBuilder st₁ B) p₂).2)
          (Value st)) p₃).1 = Except.ok s₁) := by
  constructor
  · intro st p p₂ s₁ st₁ hproj hval h
    obtain ⟨hlook, hne⟩ := gen_ok_cache st p s₁ st₁ hproj hval h
    have h2 : (javascriptForInitializing st p).2 = st₁ := by rw [h]
    have hcm : st₁.currentMode = st.currentMode := by
      rw [← h2]; exact (gen_preserves st p).1
    have hcfg : st₁.config = st.config := by
      rw [← h2]; exact (gen_preserves st p).2.1
    have hwp : st₁.wasmProject = st.wasmProject := by
      rw [← h2]; exact (gen_preserves st p).2.2.1
    have hvalEq : Value st₁ = Value st := by
      unfold Value
      rw [hcm, hcfg]
    refine gen_hit st₁ p₂ s₁ (by rw [hwp]; exact hproj) ?_
    rw [hvalEq]
    exact hlook
  · intro st B p₁ p₂ p₃ s₁ st₁ hwf hproj hval hB hABne h₁
    obtain ⟨hc1, hc2, hc3, -, -, -⟩ := hwf
    obtain ⟨hlook₁, hne₁⟩ := gen_ok_cache st p₁ s₁ st₁ hproj hval h₁
    have h2 : (javascriptForInitializing st p₁).2 = st₁ := by rw [h₁]
    have hcm₁ : st₁.currentMode = st.currentMode := by
      rw [← h2]; exact (gen_preserves st p₁).1
    have hcfg₁ : st₁.config = st.config := by
      rw [← h2]; exact (gen_preserves st p₁).2.1
    have hwp₁ : st₁.wasmProject = st.wasmProject := by
      rw [← h2]; exact (gen_preserves st p₁).2.2.1
    have hAne : Value st ≠ [] := by
      unfold validateMode at hval
      simp only [Bool.or_eq_true, beq_iff_eq] at hval
      rcases hval with (h | h) | h
      · rw [h]; exact hc1
      · rw [h]; exact hc2
      · rw [h]; exact hc3
    have hBne : B ≠ [] := by
      have hB' := hB
      unfold validateMode at hB'
      simp only [Bool.or_eq_true, beq_iff_eq] at hB'
      rcases hB' with (h | h) | h
      · rw [h]; exact hc1
      · rw [h]; exact hc2
      · rw [h]; exact hc3
    have hcfgm : (updateCurrentBuilder st₁ B).config = st.config := by
      rw [show (updateCurrentBuilder st₁ B).config = st₁.config from rfl, hcfg₁]
    have hVm : Value (updateCurrentBuilder st₁ B) = B :=
      value_of_fields _ B hBne rfl
    have hvalm : validateMode (updateCurrentBuilder st₁ B)
        (Value (updateCurrentBuilder st₁ B)) = true := by
      rw [hVm, validateMode_congr _ st B hcfgm]
      exact hB
    have hAVm : Value st ≠ Value (updateCurrentBuilder st₁ B) := by
      rw [hVm]
      exact fun hh => hABne hh.symm
    have hlook₂ : cacheLookup
        ((javascriptForInitializing (updateCurrentBuilder st₁ B) p₂).2) (Value st)
        = some s₁ := by
      rw [gen_lookup_other (updateCurrentBuilder st₁ B) p₂ (Value st) hvalm hAVm,
        cacheLookup_updateCurrentBuilder st₁ B (Value st)]
      exact hlook₁
    have hwp₂ : ((javascriptForInitializing (updateCurrentBuilder st₁ B) p₂).2).wasmProject
        = true := by
      rw [(gen_preserves (updateCurrentBuilder st₁ B) p₂).2.2.1,
        show (updateCurrentBuilder st₁ B).wasmProject = st₁.wasmProject from rfl,
        hwp₁]
      exact hproj
    have hV₃ : Value (updateCurrentBuilder
        ((javascriptForInitializing (updateCurrentBuilder st₁ B) p₂).2) (Value st))
        = Value st :=
      value_of_fields _ (Value st) hAne rfl
    refine gen_hit _ p₃ s₁ ?_ ?_
    · exact hwp₂
    · rw [hV₃]
      exact hlook₂

/-- Witness for C8: two calls in coding mode on the sample state; the second
call is made with no readable payload and still returns the cached script. -/
theorem generator_caching_witness :
    (javascriptForInitializing
      { sampleState with modeC_go_wasm_exec_cache := sampleGenOutput } none).1
    = Except.ok sampleGenOutput :=
  generator_caching.1 sampleState (some "runtime.wasmExit".data) none
    sampleGenOutput
    { sampleState with modeC_go_wasm_exec_cache := sampleGenOutput }
    rfl (by decide) rfl

/-- C9: for every token accepted by (case-insensitive) validation, a
completed `Change` followed by `Value` returns the token's normalized
(upper-cased) form; and `Value` never returns the empty string while a
coding shortcut is configured, falling back to it when `currentMode` is
empty. -/
theorem change_value_roundtrip_normalized :
    (∀ (st : TinyWasm) (m : List Char) (mainWasmExists : Bool)
        (compileResult : Option (List Char)) (payload : Option (List Char)),
      WellFormedShortcuts st.config →
      st.tinyGoInstalled = true →
      validateModeUpper st (toUpperStr m) = true →
      Value (ChangeWithNormalization st m mainWasmExists compileResult payload).1
        = toUpperStr m) ∧
    (∀ st : TinyWasm, st.config.CodingShortcut ≠ [] → Value st ≠ []) := by
  constructor
  · intro st m mainWasmExists compileResult payload hwf hinst hvalid
    have hne : toUpperStr m ≠ [] := by
      intro hnil
      rw [hnil] at hvalid
      unfold validateModeUpper toUpperStr at hvalid
      simp only [List.map_nil, Bool.or_eq_true, beq_iff_eq] at hvalid
      rcases hwf with ⟨h1, h2, h3, -⟩
      rcases hvalid with (hv | hv) | hv
      · exact h1 (List.map_eq_nil.mp hv.symm)
      · exact h2 (List.map_eq_nil.mp hv.symm)
      · exact h3 (List.map_eq_nil.mp hv.symm)
    have hgoal : ∀ st' : TinyWasm, st'.currentMode = toUpperStr m →
        Value st' = toUpperStr m :=
      fun st' h1 => value_of_fields st' _ hne h1
    simp only [ChangeWithNormalization, hvalid, hinst, Bool.not_true, Bool.and_false,
      Bool.false_eq_true, if_false]
    cases mainWasmExists with
    | false =>
      simp only [Bool.not_false, if_true]
      exact hgoal _ rfl
    | true =>
      simp only [Bool.not_true, Bool.false_eq_true, if_false]
      cases hrec : recompileMainWasm (updateCurrentBuilder st (toUpperStr m))
          true compileResult with
      | some e => exact hgoal _ rfl
      | none =>
        refine hgoal _ ?_
        unfold wasmProjectWriteOrReplaceWasmExecJsOutput
        split_ifs
        · rw [(gen_preserves _ _).1]
          rfl
        · rfl
  · intro st h
    unfold Value
    split_ifs with hcm
    · exact h
    · exact hcm

/-- Witness for C9: changing the sample state with the lower-case token `d`
yields the normalized mode `D`. -/
theorem change_value_roundtrip_witness :
    Value (ChangeWithNormalization sampleState "d".data true none none).1
      = toUpperStr "d".data :=
  change_value_roundtrip_normalized.1 sampleState "d".data true none none
    (by decide) rfl (by decide)

/-- Witness for C4's amended theorem: the invalid token `zzz` with a Go
signature is taken over verbatim. -/
theorem header_override_amended_witness :
    (analyzeWasmExecJsContent sampleState
      (some "// TinyWasm: mode=zzz\nruntime.wasmExit".data)).1.currentMode
      = "zzz".data :=
  (header_override_amended sampleState
      "// TinyWasm: mode=zzz\nruntime.wasmExit".data).1
    "zzz".data (by decide) (by decide)

end Tinywasm
